import Mathlib

/-!
Verification of the StreetFlix playback/caching/transition pipeline.

This file gives a shallow embedding of the core components of the
repository (Route Manager, Geo utilities, Cache Manager, Transition
Engine, Playback Orchestrator) and proves properties about them.

Modelling conventions:
* JavaScript numbers that only ever hold exact small values (indices,
  counters, accumulated polyline integers) are modelled as `Nat`/`Int`.
* JavaScript floating point coordinate arithmetic is modelled over `ℚ`
  where only exact operations occur, and over `ℝ` for the trigonometric
  geo math (`calculateDistance`, `interpolate` on real segments).
* 32-bit bitwise operations (`|`, `<<`, `>>`, `~`, `&`) appearing in
  `decodePolyline` are modelled with explicit two's-complement wrapping
  (`toInt32`) on `Int`.
* `async` functions are modelled by splitting them at their suspension
  points (`await`): each maximal synchronous segment becomes one atomic
  state transformer, and the cooperative event-loop is a step relation
  that interleaves the suspended continuations.
* Calls into the external street-view collaborator (`setPosition`,
  `setPov`, `waitForLoad`, frame capture, panorama lookup) are modelled
  by an environment record that says what each call returns or whether
  it throws.
-/

/-! ## Route Manager (`RouteManager`, src/unnamed/part_000)

The cursor-moving operations (`advance`, `jumpTo`, `jumpToPercent`,
`getCurrentWaypoint`, `getNextWaypoint`, `getProgress`, `reset`) do not
look at the coordinates of the waypoints, so they are embedded
parametrically in the waypoint type `α`.  The cursor `currentIndex`
starts at 0, is incremented by `advance` while strictly below
`length - 1`, and is only ever assigned an in-range value by `jumpTo`,
so it is represented as a `Nat`; `jumpTo` takes an `Int` argument since
`jumpToPercent` can compute a negative index for it. -/

structure RouteState (α : Type) where
  waypoints : List α
  currentIndex : Nat
deriving Repr, DecidableEq

namespace RouteManager

variable {α : Type}

/-- `getCurrentWaypoint`: the point at the cursor, or `none` past the end. -/
def getCurrentWaypoint (s : RouteState α) : Option α :=
  if s.currentIndex < s.waypoints.length then s.waypoints.get? s.currentIndex else none

/-- `getNextWaypoint`: the point at cursor+1, or `none` at the end. -/
def getNextWaypoint (s : RouteState α) : Option α :=
  if s.currentIndex + 1 < s.waypoints.length then s.waypoints.get? (s.currentIndex + 1)
  else none

/-- `advance()`: move the cursor forward by one if not at the last index;
returns whether it moved, paired with the new state. -/
def advance (s : RouteState α) : Bool × RouteState α :=
  if s.currentIndex < s.waypoints.length - 1 then
    (true, { s with currentIndex := s.currentIndex + 1 })
  else (false, s)

/-- `jumpTo(index)`: sets the cursor only when `0 ≤ index < length`,
returning `true`; otherwise returns `false` leaving the state unchanged. -/
def jumpTo (s : RouteState α) (index : Int) : Bool × RouteState α :=
  if 0 ≤ index ∧ index < (s.waypoints.length : Int) then
    (true, { s with currentIndex := index.toNat })
  else (false, s)

/-- `jumpToPercent(percent)`: computes
`Math.floor((percent / 100) * (waypoints.length - 1))` and delegates to
`jumpTo`. -/
def jumpToPercent (s : RouteState α) (percent : ℚ) : Bool × RouteState α :=
  jumpTo s ⌊(percent / 100) * ((s.waypoints.length : ℚ) - 1)⌋

/-- `getProgress()`: `currentIndex / (length - 1) * 100`, and 0 when
`length ≤ 1`. -/
def getProgress (s : RouteState α) : ℚ :=
  if s.waypoints.length ≤ 1 then 0
  else ((s.currentIndex : ℚ) / ((s.waypoints.length : ℚ) - 1)) * 100

/-- `reset()`: cursor back to 0 without clearing the waypoints. -/
def reset (s : RouteState α) : RouteState α :=
  { s with currentIndex := 0 }

end RouteManager

/-! ## Geo utilities: polyline decoding (`GeoUtils.decodePolyline`, src/unnamed/part_002)

The decoder reads the string left to right.  JavaScript's
`charCodeAt(index)` yields `NaN` once `index` runs past the end; then
`byte = NaN - 63 = NaN`, `NaN & 0x1f` is `0` (ToInt32), and the
do-while guard `NaN >= 0x20` is false, so a truncated chunk ends the
inner loop without raising.  The embedding keeps the not-yet-consumed
suffix of the char-code list; an empty suffix plays the role of the
NaN reads.  All `|`, `<<`, `>>`, `~`, `&` operations wrap at 32 bits as
in JavaScript. -/

namespace GeoUtils

/-- JavaScript ToInt32: wrap an integer into `[-2^31, 2^31)`. -/
def toInt32 (n : Int) : Int := (n + 2 ^ 31) % 2 ^ 32 - 2 ^ 31

/-- The 32-bit unsigned pattern of an integer, as a `Nat`. -/
def bits32 (n : Int) : Nat := (n % 2 ^ 32).toNat

/-- JavaScript `a | b` on numbers (bitwise OR after ToInt32). -/
def or32 (a b : Int) : Int := toInt32 ((bits32 a ||| bits32 b : Nat) : Int)

/-- JavaScript `a >> 1` (arithmetic shift right = floor division by 2
after ToInt32). -/
def shr1 (a : Int) : Int := Int.fdiv (toInt32 a) 2

/-- JavaScript `~a` (bitwise NOT after ToInt32). -/
def not32 (a : Int) : Int := toInt32 (-(toInt32 a) - 1)

/-- One do-while chunk of `decodePolyline`: repeatedly
`byte = charCodeAt(index++) - 63; result |= (byte & 0x1f) << shift;
shift += 5` while `byte >= 0x20`.  The input list is the unread suffix
of char codes; the result is the accumulated `result` and the remaining
suffix.  An empty suffix is the NaN read: it ORs in `0` and ends the
loop. -/
def decodeChunk (shift : Nat) (result : Int) : List Int → Int × List Int
  | [] => (or32 result 0, [])
  | c :: tl =>
    let byte := c - 63
    let result1 := or32 result (toInt32 ((byte % 32) * 2 ^ (shift % 32)))
    if 32 ≤ byte then decodeChunk (shift + 5) result1 tl else (result1, tl)

/-- `(result & 1) ? ~(result >> 1) : (result >> 1)`: undo the signed
varint zig-zag. -/
def dValue (result : Int) : Int :=
  if result % 2 = 1 then not32 (shr1 result) else shr1 result

/-- The while loop of `decodePolyline`: as long as characters remain,
read a latitude chunk and a longitude chunk, accumulate the deltas, and
emit `(lat / 1e5, lng / 1e5)`. -/
def decodeLoop : List Int → Int → Int → List (ℚ × ℚ)
  | [], _, _ => []
  | c :: tl, lat, lng =>
    let p1 := decodeChunk 0 0 (c :: tl)
    let lat1 := lat + dValue p1.1
    let p2 := decodeChunk 0 0 p1.2
    let lng1 := lng + dValue p2.1
    ((lat1 : ℚ) / 100000, (lng1 : ℚ) / 100000) :: decodeLoop p2.2 lat1 lng1
termination_by l _ _ => l.length
decreasing_by
  have hle : ∀ (sh : Nat) (r : Int) (l : List Int),
      (decodeChunk sh r l).2.length ≤ l.length := by
    intro sh r l
    induction l generalizing sh r with
    | nil => simp [decodeChunk]
    | cons c tl ih =>
      simp only [decodeChunk]
      split
      · exact le_trans (ih _ _) (Nat.le_succ _)
      · exact Nat.le_succ _
  have hcons : ∀ (sh : Nat) (r : Int) (c : Int) (tl : List Int),
      (decodeChunk sh r (c :: tl)).2.length ≤ tl.length := by
    intro sh r c tl
    simp only [decodeChunk]
    split
    · exact hle _ _ _
    · exact le_rfl
  simp only [List.length_cons]
  exact Nat.lt_succ_of_le (le_trans (hle _ _ _) (hcons _ _ _ _))

/-- `decodePolyline(encoded)`: decode a polyline given as the list of
its UTF-16 char codes, starting from `index = 0`, `lat = 0`, `lng = 0`. -/
def decodePolyline (encoded : List Int) : List (ℚ × ℚ) :=
  decodeLoop encoded 0 0

end GeoUtils

/-! ## Geo utilities: real-valued geometry (src/unnamed/part_002)

`calculateDistance` (haversine) and `interpolate` are floating-point in
the source; they are embedded over `ℝ` with exact real arithmetic.
JavaScript's `Math.atan2` is embedded case by case through
`Real.arctan`. -/

namespace GeoUtils

/-- A geographic point `{lat, lng}` in degrees. -/
abbrev GeoPoint : Type := ℝ × ℝ

noncomputable section

/-- `toRad(deg) = deg * Math.PI / 180`. -/
def toRad (deg : ℝ) : ℝ := deg * Real.pi / 180

/-- JavaScript `Math.atan2(y, x)`. -/
def atan2 (y x : ℝ) : ℝ :=
  if 0 < x then Real.arctan (y / x)
  else if x < 0 ∧ 0 ≤ y then Real.arctan (y / x) + Real.pi
  else if x < 0 ∧ y < 0 then Real.arctan (y / x) - Real.pi
  else if x = 0 ∧ 0 < y then Real.pi / 2
  else if x = 0 ∧ y < 0 then -(Real.pi / 2)
  else 0

/-- `calculateDistance(from, to)`: haversine distance in meters with
Earth radius 6 371 000 m. -/
def calculateDistance (a b : GeoPoint) : ℝ :=
  let lat1 := toRad a.1
  let lat2 := toRad b.1
  let dLat := toRad (b.1 - a.1)
  let dLng := toRad (b.2 - a.2)
  let h := Real.sin (dLat / 2) * Real.sin (dLat / 2) +
    Real.cos lat1 * Real.cos lat2 * Real.sin (dLng / 2) * Real.sin (dLng / 2)
  let c := 2 * atan2 (Real.sqrt h) (Real.sqrt (1 - h))
  6371000 * c

/-- `interpolate(from, to, t)`: linear interpolation in lat/lng space. -/
def interpolate (a b : GeoPoint) (t : ℝ) : GeoPoint :=
  (a.1 + (b.1 - a.1) * t, a.2 + (b.2 - a.2) * t)

end

end GeoUtils

/-! ## Route Manager: `setRoute` / `preprocessRoute` (src/unnamed/part_000)

`preprocessRoute` walks consecutive waypoint pairs; for each pair it
pushes the start point and, when the pair is farther apart than the
20 m target spacing, `Math.ceil(distance / 20) - 1` interpolated
points at parameters `j / steps`; finally it pushes the last input
point.  The embedding splits this into the per-segment contribution
`segmentPoints` and the fold `densify`. -/

namespace RouteManager

open GeoUtils

noncomputable section

/-- The points contributed by one iteration of the `preprocessRoute`
loop for the segment from `a` to `b`: the start point `a`, then, when
`distance > 20`, the points `interpolate a b (j / steps)` for
`j = 1, …, steps - 1` with `steps = ⌈distance / 20⌉`. -/
def segmentPoints (a b : GeoPoint) : List GeoPoint :=
  let distance := calculateDistance a b
  if 20 < distance then
    let steps : ℤ := ⌈distance / 20⌉
    a :: (List.range (steps.toNat - 1)).map
      (fun (j : Nat) => interpolate a b (((j : ℝ) + 1) / (steps : ℝ)))
  else [a]

/-- The loop of `preprocessRoute` over consecutive pairs, followed by
the final push of the last input point. -/
def densify : List GeoPoint → List GeoPoint
  | [] => []
  | [a] => [a]
  | a :: b :: tl => segmentPoints a b ++ densify (b :: tl)

/-- `preprocessRoute()`: a no-op for fewer than 2 waypoints, otherwise
the densified list. -/
def preprocessRoute (ws : List GeoPoint) : List GeoPoint :=
  if ws.length < 2 then ws else densify ws

/-- `setRoute(points)`: replaces the waypoints with the densified input
and resets the cursor to 0 (start/end markers and the cached total
distance do not affect the waypoint list and are omitted). -/
def setRoute (points : List GeoPoint) : RouteState GeoPoint :=
  { waypoints := preprocessRoute points, currentIndex := 0 }

end

end RouteManager

/-! ## Cache Manager (src/content/cache-manager.js)

JavaScript `Set`s iterate in insertion order; they are embedded as
duplicate-free lists in insertion order (`setAdd` appends only when
absent, `values()` iteration is list order, so `trimCache` drops from
the front).

`precachePoint` is async.  Its synchronous prefix — compute the key,
re-check `cached`/`loading`, mark `loading` — runs atomically up to the
first `await` (`findNearestPanoId`).  Everything after the awaits that
touches the shared sets (`cached.add`, the `finally` `loading.delete`,
`trimCache`) is again one synchronous segment.  `precacheRoute`
contains no `await` at all: it runs the guard and the synchronous
prefix of `precachePoint` for every upcoming key in one atomic segment,
recording the suspended rest of each started `precachePoint` as a
pending task.  The cooperative event loop is the step relation
`CacheStep`: either some caller invokes `precacheRoute`, or one pending
task's awaits resolve and its completion segment runs.

Keys are the `getPointKey` strings (5-decimal rounded coordinates);
they are embedded as an abstract type `κ` with decidable equality. -/

namespace CacheManager

variable {κ : Type} [DecidableEq κ]

/-- JavaScript `Set.add` on an insertion-ordered duplicate-free list. -/
def setAdd (l : List κ) (k : κ) : List κ :=
  if k ∈ l then l else l ++ [k]

/-- `trimCache()`: if the cached set exceeds `maxCacheSize`, delete the
first `size - maxCacheSize` keys the insertion-order iterator yields,
i.e. the oldest ones. -/
def trimCache (maxCacheSize : Nat) (l : List κ) : List κ :=
  if maxCacheSize < l.length then l.drop (l.length - maxCacheSize) else l

/-- The effect on the cached set of a `precachePoint` completion that
found a panorama: `cached.add(key)` followed by `trimCache()`. -/
def cachedInsert (maxCacheSize : Nat) (l : List κ) (k : κ) : List κ :=
  trimCache maxCacheSize (setAdd l k)

/-- The shared state of the cache manager under cooperative scheduling:
the two key sets and the pending suspended `precachePoint`
continuations.  Each pending task carries its key and whether its
`findNearestPanoId` await will produce a panorama (false also covers a
caught exception). -/
structure CacheState (κ : Type) where
  cached : List κ
  loading : List κ
  pending : List (κ × Bool)
deriving Repr, DecidableEq

/-- The synchronous prefix of `precachePoint(point)`: if the key is
already cached or loading, return; otherwise add it to `loading` and
suspend, leaving a pending task.  `found` says what the later awaits
will yield. -/
def precachePointStart (s : CacheState κ) (k : κ) (found : Bool) : CacheState κ :=
  if k ∈ s.cached ∨ k ∈ s.loading then s
  else { s with loading := setAdd s.loading k, pending := s.pending ++ [(k, found)] }

/-- The loop body of `precacheRoute` for one upcoming key: the
`!cached.has(key) && !loading.has(key)` guard around the
`precachePoint` call. -/
def precacheStep (outcome : κ → Bool) (st : CacheState κ) (k : κ) : CacheState κ :=
  if k ∉ st.cached ∧ k ∉ st.loading then precachePointStart st k (outcome k) else st

/-- One `precacheRoute(waypoints, currentIndex)` call: for each key of
the upcoming slice, if it is neither cached nor loading, run the
synchronous prefix of `precachePoint` (which re-checks the same
condition).  The whole call is one atomic segment — it contains no
`await`. -/
def precacheRoute (outcome : κ → Bool) (s : CacheState κ) (upcoming : List κ) :
    CacheState κ :=
  upcoming.foldl (precacheStep outcome) s

/-- The completion segment of a suspended `precachePoint`: once its
awaits have resolved, if a panorama was found `cached.add(key)`, in all
cases (`finally`) `loading.delete(key)`, then `trimCache()`. -/
def completeTask (maxCacheSize : Nat) (s : CacheState κ) (i : Nat) : CacheState κ :=
  match s.pending.get? i with
  | none => s
  | some (k, found) =>
    { cached :=
        if found then cachedInsert maxCacheSize s.cached k
        else trimCache maxCacheSize s.cached
      loading := s.loading.erase k
      pending := s.pending.eraseIdx i }

/-- The cooperative event loop: at a suspension point, either some
caller invokes `precacheRoute` over some window, or the awaits of one
pending `precachePoint` resolve and its completion segment runs. -/
inductive CacheStep (maxCacheSize : Nat) (outcome : κ → Bool) :
    CacheState κ → CacheState κ → Prop
  | warm (s : CacheState κ) (upcoming : List κ) :
      CacheStep maxCacheSize outcome s (precacheRoute outcome s upcoming)
  | complete (s : CacheState κ) (i : Nat) :
      CacheStep maxCacheSize outcome s (completeTask maxCacheSize s i)

/-- The fresh cache-manager state (constructor). -/
def initState : CacheState κ := { cached := [], loading := [], pending := [] }

/-- Well-formedness at a suspension point: the two sets are genuine
sets (duplicate-free), no key is in both `cached` and `loading`, no two
pending fetch sequences share a key, and every pending key is marked
`loading`. -/
def CacheWF (s : CacheState κ) : Prop :=
  s.cached.Nodup ∧ s.loading.Nodup ∧
  (∀ k, k ∈ s.cached → k ∉ s.loading) ∧
  (s.pending.map Prod.fst).Nodup ∧
  (∀ k, k ∈ s.pending.map Prod.fst → k ∈ s.loading)

end CacheManager

/-! ## Transition Engine (src/content/transition-engine.js)

`transitionTo` is async; `isTransitioning` is the single-flight flag.
The engine state records the flag, the two overlay elements' opacity
style and the image overlay's `src`, the settings object, and the
external viewer's position/point-of-view as last commanded.  The
environment says what `captureFrame()` returns (`none` both when no
canvas is found and when `toDataURL` throws — the method catches that
itself) and which of the awaited external calls reject.  A rejection
inside the `try` lands in the `catch` (overlays forced to opacity 0,
`false` returned); the `finally` clears `isTransitioning` on every
path.  In the transitions-disabled branch the external calls are *not*
wrapped in any `try`, so a rejection there propagates to the caller:
the embedding returns `Except.error` with the state at the throw. -/

namespace TransitionEngine

/-- The `settings` object of the engine (`easing` is an opaque string
never interpreted numerically; it does not affect any claim and is
omitted). -/
structure TransitionSettings where
  enabled : Bool
  duration : ℚ
  fadeOpacity : ℚ
deriving Repr, DecidableEq

/-- Engine + commanded-viewer state, over an abstract position type
`α` and captured frames `Frame := ℕ` (opaque data URLs). -/
structure EngineState (α : Type) where
  isTransitioning : Bool
  overlayOpacity : ℚ
  imageOverlayOpacity : ℚ
  imageSrc : Option Nat
  settings : TransitionSettings
  viewerPosition : Option α
  viewerHeading : Option ℚ
deriving Repr, DecidableEq

/-- What the environment does during one `transitionTo` call. -/
structure TransitionEnv where
  captureResult : Option Nat
  setPositionThrows : Bool
  setPovThrows : Bool
  waitForLoadThrows : Bool
deriving Repr, DecidableEq

/-- The `catch`+`finally` exit of `transitionTo`: force both overlays
to opacity 0, release the lock, return `false`. -/
def failExit {α : Type} (s : EngineState α) : Bool × EngineState α :=
  (false, { s with imageOverlayOpacity := 0, overlayOpacity := 0, isTransitioning := false })

/-- `transitionTo(targetPosition, targetHeading)`.  The result is
`Except.error s` when an exception propagates out of the call (possible
only in the transitions-disabled branch), otherwise `Except.ok` with
the returned boolean and the final state. -/
def transitionTo {α : Type} (s : EngineState α) (env : TransitionEnv)
    (targetPosition : α) (targetHeading : Option ℚ) :
    Except (EngineState α) (Bool × EngineState α) :=
  if s.isTransitioning then .ok (false, s)
  else if s.settings.enabled = false then
    if env.setPositionThrows then .error s
    else
      let s1 := { s with viewerPosition := some targetPosition }
      match targetHeading with
      | some h =>
        if env.setPovThrows then .error s1
        else .ok (true, { s1 with viewerHeading := some h })
      | none => .ok (true, s1)
  else
    let s1 := { s with isTransitioning := true }
    let s2 :=
      match env.captureResult with
      | some f => { s1 with imageSrc := some f, imageOverlayOpacity := 1 }
      | none => { s1 with overlayOpacity := s1.settings.fadeOpacity }
    if env.setPositionThrows then .ok (failExit s2)
    else
      let s3 := { s2 with viewerPosition := some targetPosition }
      match targetHeading with
      | some h =>
        if env.setPovThrows then .ok (failExit s3)
        else
          let s4 := { s3 with viewerHeading := some h }
          if env.waitForLoadThrows then .ok (failExit s4)
          else
            .ok (true, { s4 with imageOverlayOpacity := 0, overlayOpacity := 0,
                                 isTransitioning := false })
      | none =>
        if env.waitForLoadThrows then .ok (failExit s3)
        else
          .ok (true, { s3 with imageOverlayOpacity := 0, overlayOpacity := 0,
                               isTransitioning := false })

/-- Did any awaited step of the `try` block (steps 3–8) throw during
this call? -/
def envThrows (env : TransitionEnv) (targetHeading : Option ℚ) : Prop :=
  env.setPositionThrows = true ∨
  (targetHeading.isSome ∧ env.setPovThrows = true) ∨
  env.waitForLoadThrows = true

end TransitionEngine

/-! ## Playback Orchestrator (`StreetFlixController`, src/content/content.js)

One `advanceFrame` cycle has a single suspension point: the awaited
`transitionTo`.  The segment before it (Playing/Paused guard, reading
current/next waypoint, the fire-and-forget `precacheRoute`, the heading
computation) and the segment after it (conditional `route.advance()`
and progress report, conditional rescheduling) each run atomically.
`pause()` is synchronous; calling it while the transition is in flight
is modelled by the flag `pausedDuringTransition`, which applies `pause`
between the two segments.  The cache manager's state is disjoint from
this one and `precacheRoute` never touches the route, so it does not
appear here.  The cycle returns the new state together with the
progress value reported externally (`sendProgressUpdate`), if any. -/

namespace Controller

open RouteManager

/-- The orchestrator's playback state: flags, whether a next tick is
scheduled (`playbackTimer`), and the owned route manager state. -/
structure OrchState (α : Type) where
  isPlaying : Bool
  isPaused : Bool
  timerScheduled : Bool
  route : RouteState α
deriving Repr, DecidableEq

/-- `pause()`: set Paused, clear Playing, cancel a pending tick. -/
def pause {α : Type} (s : OrchState α) : OrchState α :=
  { s with isPaused := true, isPlaying := false, timerScheduled := false }

/-- `stop()`: clear both flags, cancel a pending tick, reset the route
cursor to 0. -/
def stop {α : Type} (s : OrchState α) : OrchState α :=
  { s with isPlaying := false, isPaused := false, timerScheduled := false,
           route := reset s.route }

/-- One `advanceFrame` cycle.  `success` is what the awaited
`transitionTo` resolves to; `pausedDuringTransition` says whether
`pause()` ran while that transition was in flight.  The second
component is the progress percentage reported by `sendProgressUpdate`,
or `none` when no progress is reported this cycle. -/
def advanceFrame {α : Type} (s : OrchState α) (success : Bool)
    (pausedDuringTransition : Bool) : OrchState α × Option ℚ :=
  if ¬ s.isPlaying ∨ s.isPaused then (s, none)
  else
    match getNextWaypoint s.route with
    | none => (stop s, none)
    | some _ =>
      let s1 := if pausedDuringTransition then pause s else s
      if success then
        let s2 := { s1 with route := (advance s1.route).2 }
        if s2.isPlaying ∧ ¬ s2.isPaused then
          ({ s2 with timerScheduled := true }, some (getProgress s2.route))
        else (s2, some (getProgress s2.route))
      else
        if s1.isPlaying ∧ ¬ s1.isPaused then
          ({ s1 with timerScheduled := true }, none)
        else (s1, none)

end Controller

/-! ## Theorems -/

/-- Claim C5, counterexample: `jumpTo` does not clamp an out-of-range
index into `[0, length-1]`.  On a 2-waypoint route, `jumpTo 5` returns
`false` and leaves the cursor at 0 instead of clamping it to 1. -/
theorem jumpTo_does_not_clamp_cex :
    (RouteManager.jumpTo ⟨[(0 : Int), 1], 0⟩ 5).1 = false ∧
    (RouteManager.jumpTo ⟨[(0 : Int), 1], 0⟩ 5).2.currentIndex = 0 ∧
    (RouteManager.jumpTo ⟨[(0 : Int), 1], 0⟩ 5).2.currentIndex ≠ 1 := by
  refine ⟨rfl, rfl, ?_⟩
  decide

/-- Claim C5, amended: `jumpTo` rejects (returns `false`, state
unchanged) rather than clamping out-of-range indices;
`jumpToPercent p` computes `⌊p/100 * (length-1)⌋` and delegates to
`jumpTo`; and when the cursor is inside `[0, length-1]` neither call
can move it outside that interval, for any input index or percentage
(including negative and over-100 ones). -/
theorem jumpTo_rejects_and_preserves_range {α : Type} (s : RouteState α)
    (index : Int) (p : ℚ) (hcur : s.currentIndex < s.waypoints.length) :
    ((RouteManager.jumpTo s index).1 = false → (RouteManager.jumpTo s index).2 = s) ∧
    (RouteManager.jumpTo s index).2.currentIndex < s.waypoints.length ∧
    RouteManager.jumpToPercent s p =
      RouteManager.jumpTo s ⌊(p / 100) * ((s.waypoints.length : ℚ) - 1)⌋ ∧
    (RouteManager.jumpToPercent s p).2.currentIndex < s.waypoints.length := by
  have key : ∀ i : Int, (RouteManager.jumpTo s i).2.currentIndex < s.waypoints.length := by
    intro i
    unfold RouteManager.jumpTo
    split
    · next h =>
      show i.toNat < s.waypoints.length
      omega
    · exact hcur
  refine ⟨?_, key index, rfl, key ⌊(p / 100) * ((s.waypoints.length : ℚ) - 1)⌋⟩
  intro hfalse
  unfold RouteManager.jumpTo at hfalse ⊢
  by_cases hc : 0 ≤ index ∧ index < (s.waypoints.length : Int)
  · rw [if_pos hc] at hfalse
    exact absurd hfalse (by simp)
  · rw [if_neg hc]

/-- Witness for `jumpTo_rejects_and_preserves_range` at a concrete
2-waypoint route, index 7 and percentage -50. -/
theorem jumpTo_rejects_and_preserves_range_witness :
    (0 : Nat) < ([(0 : Int), 1] : List Int).length ∧
    ((RouteManager.jumpTo ⟨[(0 : Int), 1], 0⟩ 7).1 = false →
      (RouteManager.jumpTo ⟨[(0 : Int), 1], 0⟩ 7).2 = ⟨[(0 : Int), 1], 0⟩) ∧
    (RouteManager.jumpTo ⟨[(0 : Int), 1], 0⟩ 7).2.currentIndex < 2 ∧
    RouteManager.jumpToPercent ⟨[(0 : Int), 1], 0⟩ (-50) =
      RouteManager.jumpTo ⟨[(0 : Int), 1], 0⟩
        ⌊((-50 : ℚ) / 100) * ((([(0 : Int), 1] : List Int).length : ℚ) - 1)⌋ ∧
    (RouteManager.jumpToPercent ⟨[(0 : Int), 1], 0⟩ (-50)).2.currentIndex < 2 :=
  ⟨by decide, jumpTo_rejects_and_preserves_range ⟨[(0 : Int), 1], 0⟩ 7 (-50) (by decide)⟩

/-- Claim C10, counterexample: on a route with a single waypoint (fewer
than 2), `jumpToPercent (-50)` returns `true`, not `false`: the
computed index is `⌊(-50/100) * 0⌋ = 0`, which is in range. -/
theorem jumpToPercent_singleton_negative_cex :
    (RouteManager.jumpToPercent ⟨[(0 : Int)], 0⟩ (-50)).1 = true := by
  norm_num [RouteManager.jumpToPercent, RouteManager.jumpTo]

/-- Claim C10, amended: `jumpTo` with an index outside
`[0, waypoints.length-1]` returns `false` and leaves the state
unchanged (rejection, not clamping).  Consequently `jumpToPercent` with
a negative percentage returns `false` without moving the cursor on any
route with at least 2 waypoints, and on an empty route every percentage
is rejected; but on a single-waypoint route `jumpToPercent` computes
index 0 and returns `true` (with the cursor staying at 0) for every
percentage, negative ones included. -/
theorem jumpTo_out_of_range_rejected {α : Type} (s : RouteState α)
    (index : Int) (p : ℚ) :
    (¬ (0 ≤ index ∧ index < (s.waypoints.length : Int)) →
      RouteManager.jumpTo s index = (false, s)) ∧
    (2 ≤ s.waypoints.length → p < 0 →
      RouteManager.jumpToPercent s p = (false, s)) ∧
    (s.waypoints.length = 0 → RouteManager.jumpToPercent s p = (false, s)) ∧
    (s.waypoints.length = 1 →
      RouteManager.jumpToPercent s p = (true, { s with currentIndex := 0 })) := by
  have hrej : ∀ i : Int, ¬ (0 ≤ i ∧ i < (s.waypoints.length : Int)) →
      RouteManager.jumpTo s i = (false, s) := by
    intro i hi
    unfold RouteManager.jumpTo
    exact if_neg hi
  refine ⟨hrej index, ?_, ?_, ?_⟩
  · intro hlen hp
    unfold RouteManager.jumpToPercent
    apply hrej
    have hval : (p / 100) * ((s.waypoints.length : ℚ) - 1) < 0 := by
      apply mul_neg_of_neg_of_pos
      · linarith
      · have : (2 : ℚ) ≤ (s.waypoints.length : ℚ) := by exact_mod_cast hlen
        linarith
    have hfloor : ⌊(p / 100) * ((s.waypoints.length : ℚ) - 1)⌋ < 0 := by
      rw [Int.floor_lt]
      exact_mod_cast hval
    omega
  · intro hlen
    unfold RouteManager.jumpToPercent
    apply hrej
    rw [hlen]
    omega
  · intro hlen
    unfold RouteManager.jumpToPercent RouteManager.jumpTo
    rw [hlen]
    norm_num

/-- Witness for `jumpTo_out_of_range_rejected`: a 2-waypoint route with
index 7 and percentage -50, an empty route with percentage 42, and a
1-waypoint route with percentage -50. -/
theorem jumpTo_out_of_range_rejected_witness :
    RouteManager.jumpTo (⟨[(0 : Int), 1], 0⟩ : RouteState Int) 7 =
      (false, ⟨[(0 : Int), 1], 0⟩) ∧
    RouteManager.jumpToPercent (⟨[(0 : Int), 1], 0⟩ : RouteState Int) (-50) =
      (false, ⟨[(0 : Int), 1], 0⟩) ∧
    RouteManager.jumpToPercent (⟨[], 0⟩ : RouteState Int) 42 = (false, ⟨[], 0⟩) ∧
    RouteManager.jumpToPercent (⟨[(0 : Int)], 0⟩ : RouteState Int) (-50) =
      (true, ⟨[(0 : Int)], 0⟩) :=
  ⟨(jumpTo_out_of_range_rejected ⟨[(0 : Int), 1], 0⟩ 7 (-50)).1 (by decide),
   (jumpTo_out_of_range_rejected ⟨[(0 : Int), 1], 0⟩ 7 (-50)).2.1 (by decide) (by norm_num),
   (jumpTo_out_of_range_rejected (⟨[], 0⟩ : RouteState Int) 0 42).2.2.1 rfl,
   (jumpTo_out_of_range_rejected (⟨[(0 : Int)], 0⟩ : RouteState Int) 0 (-50)).2.2.2 rfl⟩

/-- Claim C6, counterexample: the malformed one-character polyline
string `"a"` (char code 97, a dangling continuation byte) does not
decode to the empty sequence: `decodePolyline` returns one garbage
point `(0.00001, 0)`. -/
theorem decodePolyline_malformed_nonempty_cex :
    GeoUtils.decodePolyline [97] = [((1 : ℚ) / 100000, 0)] ∧
    GeoUtils.decodePolyline [97] ≠ [] := by
  constructor
  · norm_num [GeoUtils.decodePolyline, GeoUtils.decodeLoop, GeoUtils.decodeChunk,
      GeoUtils.dValue, GeoUtils.or32, GeoUtils.bits32, GeoUtils.toInt32,
      GeoUtils.shr1, GeoUtils.not32, Int.fdiv]
  · norm_num [GeoUtils.decodePolyline, GeoUtils.decodeLoop, GeoUtils.decodeChunk,
      GeoUtils.dValue, GeoUtils.or32, GeoUtils.bits32, GeoUtils.toInt32,
      GeoUtils.shr1, GeoUtils.not32, Int.fdiv]

/-- Claim C6, amended: `decodePolyline` never raises on any input —
truncated chunks end through the NaN-read path and the decoder is total
(its termination is part of this definition being accepted) — but it
does not return the empty sequence on malformed non-empty input: the
result is empty exactly when the input string is empty.  Callers
treating an empty result as "no route" will accept garbage points from
malformed non-empty strings. -/
theorem decodePolyline_empty_iff (encoded : List Int) :
    GeoUtils.decodePolyline encoded = [] ↔ encoded = [] := by
  cases encoded with
  | nil => simp [GeoUtils.decodePolyline, GeoUtils.decodeLoop]
  | cons c tl => simp [GeoUtils.decodePolyline, GeoUtils.decodeLoop]

/-- Helper: after folding a duplicate-free key sequence through
`cached.add` + `trimCache`, the cached set is exactly the suffix of the
last `maxCacheSize` insertions, in insertion order. -/
theorem cachedInsert_foldl_eq_drop {κ : Type} [DecidableEq κ] (maxCacheSize : Nat)
    (ks : List κ) (hnd : ks.Nodup) :
    ks.foldl (CacheManager.cachedInsert maxCacheSize) [] =
      ks.drop (ks.length - maxCacheSize) := by
  induction ks using List.reverseRecOn with
  | nil => simp
  | append_singleton ks k ih =>
    have hnd' : ks.Nodup := (List.nodup_append.mp hnd).1
    have hk : k ∉ ks := by
      intro hmem
      have := (List.nodup_append.mp hnd).2.2
      exact this hmem (by simp)
    rw [List.foldl_append, ih hnd']
    show CacheManager.cachedInsert maxCacheSize (ks.drop (ks.length - maxCacheSize)) k = _
    have hknotin : k ∉ ks.drop (ks.length - maxCacheSize) := fun h => hk (List.drop_subset _ _ h)
    unfold CacheManager.cachedInsert CacheManager.setAdd CacheManager.trimCache
    rw [if_neg hknotin]
    rcases Nat.lt_or_ge ks.length maxCacheSize with hA | hB
    · have h0 : ks.length - maxCacheSize = 0 := by omega
      rw [h0, List.drop_zero]
      rw [if_neg (show ¬ maxCacheSize < (ks ++ [k]).length by
        simp only [List.length_append, List.length_singleton]
        omega)]
      rw [show (ks ++ [k]).length - maxCacheSize = 0 by
        simp only [List.length_append, List.length_singleton]
        omega]
      rw [List.drop_zero]
    · rw [if_pos (show maxCacheSize < (ks.drop (ks.length - maxCacheSize) ++ [k]).length by
        simp only [List.length_append, List.length_singleton, List.length_drop]
        omega)]
      rw [show (ks.drop (ks.length - maxCacheSize) ++ [k]).length - maxCacheSize = 1 by
        simp only [List.length_append, List.length_singleton, List.length_drop]
        omega]
      rcases Nat.eq_zero_or_pos maxCacheSize with hz | hpos
      · subst hz
        rw [Nat.sub_zero, List.drop_length, List.nil_append]
        rw [show (ks ++ [k]).length - 0 = (ks ++ [k]).length by omega, List.drop_length]
        simp
      · have hle1 : 1 ≤ (ks.drop (ks.length - maxCacheSize)).length := by
          simp only [List.length_drop]
          omega
        rw [List.drop_append_of_le_length hle1, List.drop_drop]
        have hle2 : (ks ++ [k]).length - maxCacheSize ≤ ks.length := by
          simp only [List.length_append, List.length_singleton]
          omega
        rw [List.drop_append_of_le_length hle2]
        have hidx : ks.length - maxCacheSize + 1 = (ks ++ [k]).length - maxCacheSize := by
          simp only [List.length_append, List.length_singleton]
          omega
        rw [hidx]

/-- Claim C7, confirmed: after inserting more than `maxCacheSize`
distinct rounded keys into the cached set (each insertion being
`cached.add` immediately followed by `trimCache`, as in
`precachePoint`), the cached set has size exactly `maxCacheSize`, it
consists of the last `maxCacheSize` keys in insertion order, and the
keys no longer present are exactly the earliest-inserted ones. -/
theorem cachedInsert_fold_evicts_oldest {κ : Type} [DecidableEq κ]
    (maxCacheSize : Nat) (ks : List κ) (hnd : ks.Nodup)
    (hover : maxCacheSize < ks.length) :
    (ks.foldl (CacheManager.cachedInsert maxCacheSize) []).length = maxCacheSize ∧
    ks.foldl (CacheManager.cachedInsert maxCacheSize) [] =
      ks.drop (ks.length - maxCacheSize) ∧
    ∀ k ∈ ks.take (ks.length - maxCacheSize),
      k ∉ ks.foldl (CacheManager.cachedInsert maxCacheSize) [] := by
  have heq := cachedInsert_foldl_eq_drop maxCacheSize ks hnd
  refine ⟨?_, heq, ?_⟩
  · rw [heq]
    simp only [List.length_drop]
    omega
  · intro k hkTake hkFold
    rw [heq] at hkFold
    have hdisj := List.disjoint_take_drop (m := ks.length - maxCacheSize)
      (n := ks.length - maxCacheSize) hnd le_rfl
    exact hdisj hkTake hkFold

/-- Witness for `cachedInsert_fold_evicts_oldest` at the default
`maxCacheSize = 50` with 51 distinct keys. -/
theorem cachedInsert_fold_evicts_oldest_witness :
    ((List.range 51).foldl (CacheManager.cachedInsert 50) []).length = 50 ∧
    (List.range 51).foldl (CacheManager.cachedInsert 50) [] =
      (List.range 51).drop ((List.range 51).length - 50) ∧
    ∀ k ∈ (List.range 51).take ((List.range 51).length - 50),
      k ∉ (List.range 51).foldl (CacheManager.cachedInsert 50) [] :=
  cachedInsert_fold_evicts_oldest 50 (List.range 51) (List.nodup_range 51)
    (by simp)

/-- Helper: `Set.add` keeps the list duplicate-free. -/
theorem setAdd_nodup {κ : Type} [DecidableEq κ] {l : List κ} (h : l.Nodup) (k : κ) :
    (CacheManager.setAdd l k).Nodup := by
  unfold CacheManager.setAdd
  split
  · exact h
  · next hk =>
    refine List.nodup_append.mpr ⟨h, List.nodup_singleton _, ?_⟩
    intro x hx hxk
    rw [List.mem_singleton] at hxk
    subst hxk
    exact hk hx

/-- Helper: membership in `Set.add`. -/
theorem setAdd_mem {κ : Type} [DecidableEq κ] {l : List κ} {x : κ} (k : κ) :
    x ∈ CacheManager.setAdd l k ↔ x ∈ l ∨ x = k := by
  unfold CacheManager.setAdd
  split
  · next hk =>
    constructor
    · exact Or.inl
    · rintro (hx | rfl)
      · exact hx
      · exact hk
  · simp

/-- Helper: one `precacheRoute` call never touches the cached set. -/
theorem precacheRoute_cached_eq {κ : Type} [DecidableEq κ] (outcome : κ → Bool)
    (upcoming : List κ) (s : CacheManager.CacheState κ) :
    (CacheManager.precacheRoute outcome s upcoming).cached = s.cached := by
  induction upcoming generalizing s with
  | nil => rfl
  | cons k w ih =>
    show (CacheManager.precacheRoute outcome
      (CacheManager.precacheStep outcome s k) w).cached = s.cached
    rw [ih (CacheManager.precacheStep outcome s k)]
    unfold CacheManager.precacheStep CacheManager.precachePointStart
    split
    · split
      · rfl
      · rfl
    · rfl

/-- Helper: one `precacheRoute` call only ever grows the loading set. -/
theorem precacheRoute_loading_mono {κ : Type} [DecidableEq κ] (outcome : κ → Bool)
    (upcoming : List κ) (s : CacheManager.CacheState κ) {x : κ}
    (hx : x ∈ s.loading) :
    x ∈ (CacheManager.precacheRoute outcome s upcoming).loading := by
  induction upcoming generalizing s with
  | nil => exact hx
  | cons k w ih =>
    show x ∈ (CacheManager.precacheRoute outcome
      (CacheManager.precacheStep outcome s k) w).loading
    apply ih
    unfold CacheManager.precacheStep CacheManager.precachePointStart
    split
    · split
      · exact hx
      · show x ∈ CacheManager.setAdd s.loading k
        exact (setAdd_mem k).mpr (Or.inl hx)
    · exact hx

/-- Helper: after a `precacheRoute` call, every key of the window is
cached or loading. -/
theorem precacheRoute_mem_after {κ : Type} [DecidableEq κ] (outcome : κ → Bool)
    (upcoming : List κ) (s : CacheManager.CacheState κ) {k : κ}
    (hk : k ∈ upcoming) :
    k ∈ (CacheManager.precacheRoute outcome s upcoming).cached ∨
    k ∈ (CacheManager.precacheRoute outcome s upcoming).loading := by
  induction upcoming generalizing s with
  | nil => cases hk
  | cons a w ih =>
    have hexp : CacheManager.precacheRoute outcome s (a :: w) =
        CacheManager.precacheRoute outcome (CacheManager.precacheStep outcome s a) w := rfl
    rcases List.mem_cons.mp hk with rfl | hmem
    · have hka : k ∈ (CacheManager.precacheStep outcome s k).cached ∨
          k ∈ (CacheManager.precacheStep outcome s k).loading := by
        unfold CacheManager.precacheStep CacheManager.precachePointStart
        by_cases hstep : k ∉ s.cached ∧ k ∉ s.loading
        · rw [if_pos hstep, if_neg (by tauto)]
          right
          show k ∈ CacheManager.setAdd s.loading k
          exact (setAdd_mem k).mpr (Or.inr rfl)
        · rw [if_neg hstep]
          tauto
      rw [hexp]
      rcases hka with hc | hl
      · left
        rw [precacheRoute_cached_eq]
        exact hc
      · right
        exact precacheRoute_loading_mono outcome w _ hl
    · rw [hexp]
      exact ih _ hmem

/-- Helper: a `precacheRoute` call over a window whose keys are all
already cached or loading is a no-op. -/
theorem precacheRoute_skip {κ : Type} [DecidableEq κ] (outcome : κ → Bool)
    (upcoming : List κ) (s : CacheManager.CacheState κ)
    (h : ∀ k ∈ upcoming, k ∈ s.cached ∨ k ∈ s.loading) :
    CacheManager.precacheRoute outcome s upcoming = s := by
  induction upcoming generalizing s with
  | nil => rfl
  | cons a w ih =>
    have hstep : CacheManager.precacheStep outcome s a = s := by
      unfold CacheManager.precacheStep
      rw [if_neg]
      have := h a (by simp)
      tauto
    show CacheManager.precacheRoute outcome
      (CacheManager.precacheStep outcome s a) w = s
    rw [hstep]
    exact ih s (fun k hk => h k (by simp [hk]))

/-- Helper: membership in `trimCache` implies membership before. -/
theorem trimCache_subset {κ : Type} [DecidableEq κ] (maxCacheSize : Nat)
    {l : List κ} {x : κ} (hx : x ∈ CacheManager.trimCache maxCacheSize l) : x ∈ l := by
  unfold CacheManager.trimCache at hx
  split at hx
  · exact List.drop_subset _ _ hx
  · exact hx

/-- Helper: `trimCache` keeps the list duplicate-free. -/
theorem trimCache_nodup {κ : Type} [DecidableEq κ] (maxCacheSize : Nat)
    {l : List κ} (h : l.Nodup) : (CacheManager.trimCache maxCacheSize l).Nodup := by
  unfold CacheManager.trimCache
  split
  · exact h.sublist (List.drop_sublist _ _)
  · exact h

/-- Helper: the guarded loop body `precacheStep` preserves
well-formedness. -/
theorem precacheStep_WF {κ : Type} [DecidableEq κ] (outcome : κ → Bool)
    {s : CacheManager.CacheState κ} (h : CacheManager.CacheWF s) (k : κ) :
    CacheManager.CacheWF (CacheManager.precacheStep outcome s k) := by
  obtain ⟨hc, hl, hdisj, hpnd, hpl⟩ := h
  unfold CacheManager.precacheStep CacheManager.precachePointStart
  by_cases hguard : k ∉ s.cached ∧ k ∉ s.loading
  · rw [if_pos hguard, if_neg (by tauto)]
    refine ⟨hc, setAdd_nodup hl k, ?_, ?_, ?_⟩
    · intro x hx hmem
      rcases (setAdd_mem k).mp hmem with hold | rfl
      · exact hdisj x hx hold
      · exact hguard.1 hx
    · show ((s.pending ++ [(k, outcome k)]).map Prod.fst).Nodup
      rw [List.map_append]
      refine List.nodup_append.mpr ⟨hpnd, by simp, ?_⟩
      intro x hx hxk
      simp only [List.map_cons, List.map_nil, List.mem_singleton] at hxk
      subst hxk
      exact hguard.2 (hpl x hx)
    · intro x hx
      show x ∈ CacheManager.setAdd s.loading k
      simp only [List.map_append, List.mem_append, List.map_cons, List.map_nil,
        List.mem_singleton] at hx
      rcases hx with hx | hxe
      · exact (setAdd_mem k).mpr (Or.inl (hpl x hx))
      · rw [hxe]
        exact (setAdd_mem k).mpr (Or.inr rfl)
  · rw [if_neg hguard]
    exact ⟨hc, hl, hdisj, hpnd, hpl⟩

/-- Helper: a whole `precacheRoute` call preserves well-formedness. -/
theorem precacheRoute_WF {κ : Type} [DecidableEq κ] (outcome : κ → Bool)
    (upcoming : List κ) {s : CacheManager.CacheState κ}
    (h : CacheManager.CacheWF s) :
    CacheManager.CacheWF (CacheManager.precacheRoute outcome s upcoming) := by
  induction upcoming generalizing s with
  | nil => exact h
  | cons a w ih =>
    show CacheManager.CacheWF (CacheManager.precacheRoute outcome
      (CacheManager.precacheStep outcome s a) w)
    exact ih (precacheStep_WF outcome h a)

/-- Helper: the key found at position `i` of a list whose images under
`f` are duplicate-free does not survive `eraseIdx i` (under `f`). -/
theorem map_eraseIdx_not_mem {β γ : Type} (f : β → γ) :
    ∀ (l : List β) (i : Nat) (x : β), (l.map f).Nodup → l.get? i = some x →
      f x ∉ (l.eraseIdx i).map f := by
  intro l
  induction l with
  | nil => intro i x _ hget; simp at hget
  | cons a tl ih =>
    intro i x hnd hget
    cases i with
    | zero =>
      simp only [List.get?] at hget
      injection hget with hget
      subst hget
      simp only [List.eraseIdx]
      simp only [List.map_cons, List.nodup_cons] at hnd
      exact hnd.1
    | succ j =>
      simp only [List.get?] at hget
      simp only [List.eraseIdx, List.map_cons, List.mem_cons]
      simp only [List.map_cons, List.nodup_cons] at hnd
      rintro (heq | hmem)
      · have hxin : f x ∈ tl.map f :=
          List.mem_map_of_mem f (List.get?_mem hget)
        rw [← heq] at hnd
        exact hnd.1 hxin
      · exact ih j x hnd.2 hget hmem

/-- Helper: the completion segment of a `precachePoint` preserves
well-formedness. -/
theorem completeTask_WF {κ : Type} [DecidableEq κ] (maxCacheSize : Nat)
    {s : CacheManager.CacheState κ} (h : CacheManager.CacheWF s) (i : Nat) :
    CacheManager.CacheWF (CacheManager.completeTask maxCacheSize s i) := by
  obtain ⟨hc, hl, hdisj, hpnd, hpl⟩ := h
  unfold CacheManager.completeTask
  cases hget : s.pending.get? i with
  | none => exact ⟨hc, hl, hdisj, hpnd, hpl⟩
  | some p =>
    obtain ⟨k, found⟩ := p
    show CacheManager.CacheWF
      { cached :=
          if found then CacheManager.cachedInsert maxCacheSize s.cached k
          else CacheManager.trimCache maxCacheSize s.cached
        loading := s.loading.erase k
        pending := s.pending.eraseIdx i }
    have hcached' : ∀ x, (x ∈ (if found then
        CacheManager.cachedInsert maxCacheSize s.cached k
        else CacheManager.trimCache maxCacheSize s.cached)) → x ∈ s.cached ∨ x = k := by
      intro x hx
      split at hx
      · have := trimCache_subset maxCacheSize hx
        rcases (setAdd_mem k).mp this with hold | hxe
        · exact Or.inl hold
        · exact Or.inr hxe
      · exact Or.inl (trimCache_subset maxCacheSize hx)
    refine ⟨?_, hl.erase k, ?_, ?_, ?_⟩
    · show (if found then CacheManager.cachedInsert maxCacheSize s.cached k
        else CacheManager.trimCache maxCacheSize s.cached).Nodup
      split
      · exact trimCache_nodup maxCacheSize (setAdd_nodup hc k)
      · exact trimCache_nodup maxCacheSize hc
    · intro x hx hmem
      rcases hcached' x hx with hold | hxe
      · exact hdisj x hold (List.erase_subset _ _ hmem)
      · rw [hxe, hl.mem_erase_iff] at hmem
        exact hmem.1 rfl
    · exact hpnd.sublist (List.Sublist.map Prod.fst (List.eraseIdx_sublist _ i))
    · intro x hx
      have hkmem : k ∉ (s.pending.eraseIdx i).map Prod.fst :=
        map_eraseIdx_not_mem Prod.fst s.pending i (k, found) hpnd hget
      have hxk : x ≠ k := by
        intro hxe
        apply hkmem
        rw [← hxe]
        exact hx
      have hsub : (s.pending.eraseIdx i).map Prod.fst ⊆ s.pending.map Prod.fst :=
        ((List.eraseIdx_sublist _ i).map Prod.fst).subset
      rw [List.mem_erase_of_ne hxk]
      exact hpl x (hsub hx)

/-- Claim C8, confirmed: (a) in every state the cooperative event loop
can reach from a fresh cache manager — i.e. at every suspension point —
no rounded key is simultaneously in the loading set and in the cached
set; (b) `precacheRoute` (the `warm` entry point) is idempotent: a
second call over the same window, issued immediately after the first
(no suspension in between, since `precacheRoute` never awaits), changes
nothing, so it never starts a second concurrent fetch sequence for any
rounded key. -/
theorem cache_disjoint_and_warm_idempotent {κ : Type} [DecidableEq κ]
    (maxCacheSize : Nat) (outcome : κ → Bool) :
    (∀ s : CacheManager.CacheState κ,
      Relation.ReflTransGen (CacheManager.CacheStep maxCacheSize outcome)
        CacheManager.initState s →
      ∀ k, ¬ (k ∈ s.loading ∧ k ∈ s.cached)) ∧
    (∀ (s : CacheManager.CacheState κ) (upcoming : List κ),
      CacheManager.precacheRoute outcome
        (CacheManager.precacheRoute outcome s upcoming) upcoming =
      CacheManager.precacheRoute outcome s upcoming) := by
  constructor
  · intro s hreach
    have hwf : CacheManager.CacheWF s := by
      induction hreach with
      | refl =>
        refine ⟨List.nodup_nil, List.nodup_nil, ?_, ?_, ?_⟩ <;> simp [CacheManager.initState]
      | tail hab hbc ih =>
        cases hbc with
        | warm upcoming => exact precacheRoute_WF outcome upcoming ih
        | complete i => exact completeTask_WF maxCacheSize ih i
    intro k hk
    exact hwf.2.2.1 k hk.2 hk.1
  · intro s upcoming
    exact precacheRoute_skip outcome upcoming _
      (fun k hk => precacheRoute_mem_after outcome upcoming s hk)

/-- Witness for `cache_disjoint_and_warm_idempotent`: the state reached
from a fresh manager by one `warm` call over the window `[1, 2]` (keys
as naturals, every lookup succeeding), checked for key 1, and the
idempotence equation for that same call. -/
theorem cache_disjoint_and_warm_idempotent_witness :
    ¬ ((1 : Nat) ∈ (CacheManager.precacheRoute (fun _ => true)
          CacheManager.initState [1, 2]).loading ∧
        (1 : Nat) ∈ (CacheManager.precacheRoute (fun _ => true)
          CacheManager.initState [1, 2]).cached) ∧
    CacheManager.precacheRoute (fun _ => true)
        (CacheManager.precacheRoute (fun _ => true)
          CacheManager.initState [1, 2]) [1, 2] =
      CacheManager.precacheRoute (fun _ => true)
        (CacheManager.initState (κ := Nat)) [1, 2] :=
  ⟨(cache_disjoint_and_warm_idempotent 50 (fun _ => true)).1 _
      (Relation.ReflTransGen.single
        (CacheManager.CacheStep.warm CacheManager.initState [1, 2])) 1,
   (cache_disjoint_and_warm_idempotent 50 (fun _ => true)).2
      CacheManager.initState [1, 2]⟩

/-- Claim C1, confirmed: while a transition is `InProgress`
(`isTransitioning = true`), a second `transitionTo` call returns
`false` immediately with the engine state completely unchanged — in
particular the overlay and image-overlay opacities set by the first
call and the commanded viewer position are untouched. -/
theorem transitionTo_rejects_when_inProgress {α : Type}
    (s : TransitionEngine.EngineState α) (env : TransitionEngine.TransitionEnv)
    (target : α) (heading : Option ℚ) (hbusy : s.isTransitioning = true) :
    TransitionEngine.transitionTo s env target heading = .ok (false, s) := by
  unfold TransitionEngine.transitionTo
  simp [hbusy]

/-- Witness for `transitionTo_rejects_when_inProgress`: a concrete busy
engine state (mid-first-call: image overlay shown at opacity 1) and an
environment in which every external call would succeed. -/
theorem transitionTo_rejects_when_inProgress_witness :
    (⟨true, 0, 1, some 7, ⟨true, 300, 4/5⟩, none, none⟩ :
        TransitionEngine.EngineState Int).isTransitioning = true ∧
    TransitionEngine.transitionTo
        (⟨true, 0, 1, some 7, ⟨true, 300, 4/5⟩, none, none⟩ :
          TransitionEngine.EngineState Int)
        ⟨some 7, false, false, false⟩ 0 none =
      .ok (false, ⟨true, 0, 1, some 7, ⟨true, 300, 4/5⟩, none, none⟩) :=
  ⟨rfl, transitionTo_rejects_when_inProgress _ _ 0 none rfl⟩

/-- Claim C2, confirmed: every `transitionTo` call that enters
`InProgress` (engine idle, transitions enabled) settles — no exception
propagates — with `isTransitioning = false` again on every exit path;
when some awaited step of steps 3–8 throws, it returns `false` with
both overlays forced to opacity 0, and when nothing throws it returns
`true`. -/
theorem transitionTo_always_releases_lock {α : Type}
    (s : TransitionEngine.EngineState α) (env : TransitionEngine.TransitionEnv)
    (target : α) (heading : Option ℚ)
    (hidle : s.isTransitioning = false) (hen : s.settings.enabled = true) :
    ∃ (r : Bool) (s1 : TransitionEngine.EngineState α),
      TransitionEngine.transitionTo s env target heading = .ok (r, s1) ∧
      s1.isTransitioning = false ∧
      (TransitionEngine.envThrows env heading →
        r = false ∧ s1.overlayOpacity = 0 ∧ s1.imageOverlayOpacity = 0) ∧
      (¬ TransitionEngine.envThrows env heading → r = true) := by
  obtain ⟨cap, sp, spov, wl⟩ := env
  cases sp <;> cases spov <;> cases wl <;> cases cap <;> cases heading <;>
    simp [TransitionEngine.transitionTo, TransitionEngine.failExit,
      TransitionEngine.envThrows, hidle, hen]

/-- Witness for `transitionTo_always_releases_lock`: a concrete idle,
enabled engine in an environment where `waitForLoad` rejects. -/
theorem transitionTo_always_releases_lock_witness :
    (⟨false, 0, 0, none, ⟨true, 300, 4/5⟩, none, none⟩ :
        TransitionEngine.EngineState Int).isTransitioning = false ∧
    (⟨false, 0, 0, none, ⟨true, 300, 4/5⟩, none, none⟩ :
        TransitionEngine.EngineState Int).settings.enabled = true ∧
    ∃ (r : Bool) (s1 : TransitionEngine.EngineState Int),
      TransitionEngine.transitionTo
          (⟨false, 0, 0, none, ⟨true, 300, 4/5⟩, none, none⟩ :
            TransitionEngine.EngineState Int)
          ⟨some 7, false, false, true⟩ 0 (some 90) = .ok (r, s1) ∧
      s1.isTransitioning = false ∧
      (TransitionEngine.envThrows ⟨some 7, false, false, true⟩ (some 90) →
        r = false ∧ s1.overlayOpacity = 0 ∧ s1.imageOverlayOpacity = 0) ∧
      (¬ TransitionEngine.envThrows ⟨some 7, false, false, true⟩ (some 90) →
        r = true) :=
  ⟨rfl, rfl, transitionTo_always_releases_lock _ _ 0 (some 90) rfl rfl⟩

/-- Helper: `getNextWaypoint` is `some` exactly when the cursor is not
at the last index. -/
theorem getNextWaypoint_isSome_iff {α : Type} (s : RouteState α) :
    (RouteManager.getNextWaypoint s).isSome ↔
      s.currentIndex + 1 < s.waypoints.length := by
  unfold RouteManager.getNextWaypoint
  split
  · next h =>
    simp only [iff_true_intro h, iff_true]
    rw [List.get?_eq_get h]
    simp
  · next h => simp [h]

/-- Claim C3, confirmed: in an advance cycle that actually reaches the
`transitionTo` call (Playing, not Paused, a next waypoint exists), a
`false` transition result leaves the whole route state — in particular
the cursor — unchanged and reports no progress; and the only way the
cursor changes in such a cycle is a `true` transition result. -/
theorem advanceFrame_advances_only_on_success {α : Type}
    (s : Controller.OrchState α) (pd : Bool)
    (hplay : s.isPlaying = true) (hpause : s.isPaused = false)
    (hnext : (RouteManager.getNextWaypoint s.route).isSome) :
    ((Controller.advanceFrame s false pd).1.route = s.route ∧
      (Controller.advanceFrame s false pd).2 = none) ∧
    (∀ success : Bool,
      (Controller.advanceFrame s success pd).1.route.currentIndex ≠
        s.route.currentIndex → success = true) := by
  obtain ⟨w, hw⟩ := Option.isSome_iff_exists.mp hnext
  have hfalse : (Controller.advanceFrame s false pd).1.route = s.route ∧
      (Controller.advanceFrame s false pd).2 = none := by
    unfold Controller.advanceFrame
    rw [hw]
    cases pd <;> simp [hplay, hpause, Controller.pause]
  refine ⟨hfalse, ?_⟩
  intro success hchanged
  cases success with
  | false =>
    exact absurd (congrArg RouteState.currentIndex hfalse.1) hchanged
  | true => rfl

/-- Witness for `advanceFrame_advances_only_on_success`: a playing
orchestrator on a 2-waypoint route, cursor at 0. -/
theorem advanceFrame_advances_only_on_success_witness :
    (⟨true, false, false, ⟨[(0 : Int), 1], 0⟩⟩ :
        Controller.OrchState Int).isPlaying = true ∧
    (⟨true, false, false, ⟨[(0 : Int), 1], 0⟩⟩ :
        Controller.OrchState Int).isPaused = false ∧
    (RouteManager.getNextWaypoint
      (⟨[(0 : Int), 1], 0⟩ : RouteState Int)).isSome ∧
    (((Controller.advanceFrame
          (⟨true, false, false, ⟨[(0 : Int), 1], 0⟩⟩ : Controller.OrchState Int)
          false false).1.route = ⟨[(0 : Int), 1], 0⟩ ∧
      (Controller.advanceFrame
          (⟨true, false, false, ⟨[(0 : Int), 1], 0⟩⟩ : Controller.OrchState Int)
          false false).2 = none) ∧
    (∀ success : Bool,
      (Controller.advanceFrame
          (⟨true, false, false, ⟨[(0 : Int), 1], 0⟩⟩ : Controller.OrchState Int)
          success false).1.route.currentIndex ≠ 0 → success = true)) :=
  ⟨rfl, rfl, by decide,
    advanceFrame_advances_only_on_success _ false rfl rfl (by decide)⟩

/-- Claim C4, counterexample: with a playing orchestrator on a
2-waypoint route, if `pause()` is called while the cycle's transition
is in flight and that transition then succeeds, the cursor still
advances from 0 to 1 — the Paused check does not suppress the
`route.advance()` of step 5, only the rescheduling of step 6. -/
theorem advanceFrame_pause_still_advances_cursor_cex :
    (Controller.advanceFrame
        (⟨true, false, false, ⟨[(0 : Int), 1], 0⟩⟩ : Controller.OrchState Int)
        true true).1.route.currentIndex = 1 ∧
    (1 : Nat) ≠ 0 ∧
    (Controller.advanceFrame
        (⟨true, false, false, ⟨[(0 : Int), 1], 0⟩⟩ : Controller.OrchState Int)
        true true).1.timerScheduled = false := by
  refine ⟨?_, by decide, ?_⟩ <;> decide

/-- Claim C4, amended: if `pause()` is called while an advance cycle's
transition is in flight, the transition runs to completion and the
scheduling of the next tick (step 6) is suppressed by the Paused check
(the state ends Paused, not Playing, with no tick scheduled); but the
cursor advance of step 5 is *not* suppressed: it still happens exactly
when the transition reports success. -/
theorem advanceFrame_pause_suppresses_resched_only {α : Type}
    (s : Controller.OrchState α) (success : Bool)
    (hplay : s.isPlaying = true) (hpause : s.isPaused = false)
    (hnext : (RouteManager.getNextWaypoint s.route).isSome) :
    (Controller.advanceFrame s success true).1.timerScheduled = false ∧
    (Controller.advanceFrame s success true).1.isPaused = true ∧
    (Controller.advanceFrame s success true).1.isPlaying = false ∧
    (success = true →
      (Controller.advanceFrame s success true).1.route.currentIndex =
        s.route.currentIndex + 1) ∧
    (success = false →
      (Controller.advanceFrame s success true).1.route = s.route) := by
  obtain ⟨w, hw⟩ := Option.isSome_iff_exists.mp hnext
  have hlt : s.route.currentIndex + 1 < s.route.waypoints.length :=
    (getNextWaypoint_isSome_iff s.route).mp (hw ▸ rfl)
  unfold Controller.advanceFrame
  rw [hw]
  cases success with
  | false => simp [hplay, hpause, Controller.pause]
  | true =>
    simp only [hplay, hpause, Controller.pause, RouteManager.advance]
    have hcond : s.route.currentIndex < s.route.waypoints.length - 1 := by omega
    simp [hcond]

/-- Witness for `advanceFrame_pause_suppresses_resched_only`: the same
playing orchestrator, transition succeeding, pause during flight. -/
theorem advanceFrame_pause_suppresses_resched_only_witness :
    (⟨true, false, false, ⟨[(0 : Int), 1], 0⟩⟩ :
        Controller.OrchState Int).isPlaying = true ∧
    (Controller.advanceFrame
        (⟨true, false, false, ⟨[(0 : Int), 1], 0⟩⟩ : Controller.OrchState Int)
        true true).1.timerScheduled = false ∧
    (Controller.advanceFrame
        (⟨true, false, false, ⟨[(0 : Int), 1], 0⟩⟩ : Controller.OrchState Int)
        true true).1.isPaused = true ∧
    ((true : Bool) = true →
      (Controller.advanceFrame
          (⟨true, false, false, ⟨[(0 : Int), 1], 0⟩⟩ : Controller.OrchState Int)
          true true).1.route.currentIndex = 0 + 1) :=
  ⟨rfl,
   (advanceFrame_pause_suppresses_resched_only _ true rfl rfl (by decide)).1,
   (advanceFrame_pause_suppresses_resched_only _ true rfl rfl (by decide)).2.1,
   fun _ =>
     (advanceFrame_pause_suppresses_resched_only
       (⟨true, false, false, ⟨[(0 : Int), 1], 0⟩⟩ : Controller.OrchState Int)
       true rfl rfl (by decide)).2.2.2.1 rfl⟩

/-- Helper: on a two-point input, `setRoute` produces the start point,
the interior interpolated points of the single segment, then the end
point. -/
theorem setRoute_pair_expand (a b : GeoUtils.GeoPoint)
    (hd : 20 < GeoUtils.calculateDistance a b) :
    (RouteManager.setRoute [a, b]).waypoints =
      a :: ((List.range (⌈GeoUtils.calculateDistance a b / 20⌉.toNat - 1)).map
        (fun (j : Nat) => GeoUtils.interpolate a b
          (((j : ℝ) + 1) / ((⌈GeoUtils.calculateDistance a b / 20⌉ : ℤ) : ℝ))) ++ [b]) := by
  show RouteManager.preprocessRoute [a, b] = _
  unfold RouteManager.preprocessRoute
  rw [if_neg (by norm_num)]
  show RouteManager.segmentPoints a b ++ RouteManager.densify [b] = _
  unfold RouteManager.segmentPoints RouteManager.densify
  rw [if_pos hd]
  simp only [List.cons_append]

/-- Claim C9, confirmed: for every two-point input whose (computed
haversine) distance D exceeds 20 m, `setRoute` produces exactly
`⌈D/20⌉ + 1 ≥ ⌈D/20⌉ + 1` ordered waypoints, the first and last being
the two inputs; every waypoint is the linear interpolation of the
segment at parameter `i / ⌈D/20⌉`, and that parameter sequence is
strictly increasing. -/
theorem setRoute_two_point_densification (a b : GeoUtils.GeoPoint)
    (hd : 20 < GeoUtils.calculateDistance a b) :
    (RouteManager.setRoute [a, b]).waypoints.length =
      ⌈GeoUtils.calculateDistance a b / 20⌉.toNat + 1 ∧
    (RouteManager.setRoute [a, b]).waypoints.head? = some a ∧
    (RouteManager.setRoute [a, b]).waypoints.getLast? = some b ∧
    (∀ i : Nat, i ≤ ⌈GeoUtils.calculateDistance a b / 20⌉.toNat →
      (RouteManager.setRoute [a, b]).waypoints.get? i =
        some (GeoUtils.interpolate a b
          ((i : ℝ) / ((⌈GeoUtils.calculateDistance a b / 20⌉ : ℤ) : ℝ)))) ∧
    StrictMono (fun i : Nat =>
      (i : ℝ) / ((⌈GeoUtils.calculateDistance a b / 20⌉ : ℤ) : ℝ)) := by
  have hceil1 : 1 < ⌈GeoUtils.calculateDistance a b / 20⌉ := by
    rw [Int.lt_ceil]
    push_cast
    linarith
  set D := GeoUtils.calculateDistance a b with hD
  set n : Nat := ⌈D / 20⌉.toNat with hn
  have hn2 : 2 ≤ n := by omega
  have hcast : ((⌈D / 20⌉ : ℤ) : ℝ) = (n : ℝ) := by
    rw [hn]
    norm_cast
    omega
  have hcpos : (0 : ℝ) < ((⌈D / 20⌉ : ℤ) : ℝ) := by
    rw [hcast]
    positivity
  have hexp := setRoute_pair_expand a b hd
  rw [← hD, ← hn] at hexp
  refine ⟨?_, ?_, ?_, ?_, ?_⟩
  · rw [hexp]
    simp only [List.length_cons, List.length_append, List.length_map,
      List.length_range, List.length_singleton, List.length_nil]
    omega
  · rw [hexp]
    rfl
  · rw [hexp, ← List.cons_append, List.getLast?_concat]
  · intro i hi
    rw [hexp]
    rcases Nat.eq_zero_or_pos i with rfl | hipos
    · simp [GeoUtils.interpolate]
    · obtain ⟨j, rfl⟩ := Nat.exists_eq_succ_of_ne_zero (Nat.pos_iff_ne_zero.mp hipos)
      rw [List.get?_cons_succ]
      rcases Nat.lt_or_ge j (n - 1) with hjlt | hjge
      · rw [List.get?_append (by simpa using hjlt), List.get?_map,
          List.get?_range hjlt]
        simp only [Option.map_some']
        congr 2
        push_cast
        ring
      · have hj : j = n - 1 := by omega
        subst hj
        rw [List.get?_append_right (by simpa using le_rfl)]
        simp only [List.length_map, List.length_range, Nat.sub_self,
          List.get?_cons_zero]
        have hone : (((n - 1 : Nat) + 1 : Nat) : ℝ) /
            ((⌈D / 20⌉ : ℤ) : ℝ) = 1 := by
          rw [hcast]
          have : (((n - 1 : Nat) + 1 : Nat) : ℝ) = (n : ℝ) := by
            norm_cast
            omega
          rw [this]
          field_simp
        rw [hone]
        unfold GeoUtils.interpolate
        norm_num
  · intro i j hij
    simp only
    rw [div_lt_div_iff_of_pos_right hcpos]
    exact_mod_cast hij

/-- Helper: the haversine distance from `(0,0)` to `(180,0)` evaluates
to `6371000 * π` (half the meridian circumference times the 2-radius). -/
theorem calculateDistance_meridian :
    GeoUtils.calculateDistance ((0 : ℝ), 0) ((180 : ℝ), 0) =
      6371000 * (2 * (Real.pi / 2)) := by
  unfold GeoUtils.calculateDistance GeoUtils.toRad
  dsimp only
  rw [show ((180 : ℝ) - 0) * Real.pi / 180 / 2 = Real.pi / 2 by ring]
  rw [show ((0 : ℝ) - 0) * Real.pi / 180 / 2 = 0 by ring]
  rw [Real.sin_pi_div_two, Real.sin_zero]
  rw [show (1 : ℝ) * 1 + Real.cos ((0 : ℝ) * Real.pi / 180) *
      Real.cos ((180 : ℝ) * Real.pi / 180) * 0 * 0 = 1 by ring]
  rw [show (1 : ℝ) - 1 = 0 by norm_num]
  rw [Real.sqrt_one, Real.sqrt_zero]
  have hatan : GeoUtils.atan2 1 0 = Real.pi / 2 := by
    unfold GeoUtils.atan2
    norm_num
  rw [hatan]

/-- Helper: the two test endpoints are more than 20 m apart. -/
theorem calculateDistance_meridian_gt :
    20 < GeoUtils.calculateDistance ((0 : ℝ), 0) ((180 : ℝ), 0) := by
  rw [calculateDistance_meridian]
  have hpi := Real.pi_gt_three
  linarith

/-- Witness for `setRoute_two_point_densification` at the endpoints
`(0,0)` and `(180,0)`. -/
theorem setRoute_two_point_densification_witness :
    20 < GeoUtils.calculateDistance ((0 : ℝ), 0) ((180 : ℝ), 0) ∧
    ((RouteManager.setRoute [((0 : ℝ), 0), ((180 : ℝ), 0)]).waypoints.length =
      ⌈GeoUtils.calculateDistance ((0 : ℝ), 0) ((180 : ℝ), 0) / 20⌉.toNat + 1 ∧
    (RouteManager.setRoute [((0 : ℝ), 0), ((180 : ℝ), 0)]).waypoints.head? =
      some ((0 : ℝ), 0) ∧
    (RouteManager.setRoute [((0 : ℝ), 0), ((180 : ℝ), 0)]).waypoints.getLast? =
      some ((180 : ℝ), 0) ∧
    (∀ i : Nat,
      i ≤ ⌈GeoUtils.calculateDistance ((0 : ℝ), 0) ((180 : ℝ), 0) / 20⌉.toNat →
      (RouteManager.setRoute [((0 : ℝ), 0), ((180 : ℝ), 0)]).waypoints.get? i =
        some (GeoUtils.interpolate ((0 : ℝ), 0) ((180 : ℝ), 0)
          ((i : ℝ) /
            ((⌈GeoUtils.calculateDistance ((0 : ℝ), 0) ((180 : ℝ), 0) / 20⌉ : ℤ) : ℝ)))) ∧
    StrictMono (fun i : Nat =>
      (i : ℝ) /
        ((⌈GeoUtils.calculateDistance ((0 : ℝ), 0) ((180 : ℝ), 0) / 20⌉ : ℤ) : ℝ))) :=
  ⟨calculateDistance_meridian_gt,
   setRoute_two_point_densification ((0 : ℝ), 0) ((180 : ℝ), 0)
     calculateDistance_meridian_gt⟩
